import Mathlib

/-!
# SonicChat relay core: a shallow embedding with verified properties

This file embeds the presence-aware message relay of the SonicChat
repository in Lean 4 and proves (or refutes) the testable properties of
its specification.

The embedded source files are:
* the Socket.io relay handler module (`setupSocketHandlers` and its helper
  store: `onlineUsers`, `userSockets`, `messageStore`, `addMessageToStore`,
  `getMessagesFromStore`, the `join_room` / `leave_room` / `send_message` /
  `send_private_message` / `disconnect` event handlers and the
  authentication middleware);
* `server/src/routes/friends.ts` (accept / reject friend request handlers
  and the DM-history room derivation);
* `server/src/routes/messages.ts` (the `GET /dm/:recipientId` room
  derivation);
* `client/src/utils/encryption.ts` (`encryptMessage` / `decryptMessage`,
  hybrid RSA-OAEP + AES-GCM);
* `client/src/hooks/useEncryption.ts` (the `encrypt` fall-open path).

Modelling conventions:
* JavaScript `Map`s are modelled as insertion-ordered association lists
  (`mapGet` / `mapSet` / `mapDelete` mirror `get` / `set` / `delete`);
  JavaScript `Set`s of strings as duplicate-free lists (`setAdd`).
* Durable-store (Firestore) calls are external collaborators: each call
  site takes a boolean (or a lookup function) describing the collaborator's
  answer, and the handler body is translated verbatim around it, including
  its `try`/`catch` structure.
* Socket.io emissions are reified as an `Event` list returned by each
  handler, in emission order.
* Machine integers do not occur in the relay paths (array lengths are
  JavaScript numbers used well below 2^53); the 4-byte little-endian length
  field of the encryption wire format is modelled explicitly (`u32le`).
-/

/-! ## JavaScript `Map` / `Set` model -/

/-- `Map.get`: the value at the first (and, for key-unique lists, only)
occurrence of the key. -/
def mapGet {α : Type} : List (String × α) → String → Option α
  | [], _ => none
  | (k', v') :: rest, k => if k' = k then some v' else mapGet rest k

/-- `Map.set`: replace the value in place if the key is present, otherwise
append the new entry at the tail (JavaScript `Map`s preserve insertion
order). -/
def mapSet {α : Type} : List (String × α) → String → α → List (String × α)
  | [], k, v => [(k, v)]
  | (k', v') :: rest, k, v =>
      if k' = k then (k, v) :: rest else (k', v') :: mapSet rest k v

/-- `Map.delete`: remove the entry with the given key. -/
def mapDelete {α : Type} : List (String × α) → String → List (String × α)
  | [], _ => []
  | (k', v') :: rest, k => if k' = k then rest else (k', v') :: mapDelete rest k

/-- The keys of a map, in order. -/
def mapKeys {α : Type} (m : List (String × α)) : List String :=
  m.map Prod.fst

/-- `Set.add` on a set-of-strings modelled as a duplicate-free list:
a no-op when the element is present. -/
def setAdd (l : List String) (x : String) : List String :=
  if x ∈ l then l else l ++ [x]

theorem mapKeys_nil {α : Type} : mapKeys ([] : List (String × α)) = [] := rfl

theorem mapKeys_cons {α : Type} (k : String) (v : α) (m : List (String × α)) :
    mapKeys ((k, v) :: m) = k :: mapKeys m := rfl

theorem mapGet_mapSet_self {α : Type} (m : List (String × α)) (k : String) (v : α) :
    mapGet (mapSet m k v) k = some v := by
  induction m with
  | nil => simp [mapGet, mapSet]
  | cons p rest ih =>
      obtain ⟨k', v'⟩ := p
      by_cases h : k' = k
      · simp [mapGet, mapSet, h]
      · simp [mapGet, mapSet, h, ih]

theorem mapGet_mapSet_ne {α : Type} (m : List (String × α)) (k k' : String) (v : α)
    (h : k' ≠ k) : mapGet (mapSet m k v) k' = mapGet m k' := by
  have hne : k ≠ k' := fun he => h he.symm
  induction m with
  | nil => simp [mapGet, mapSet, hne]
  | cons p rest ih =>
      obtain ⟨k'', v''⟩ := p
      by_cases hk : k'' = k
      · subst hk
        simp [mapGet, mapSet, hne]
      · by_cases hk' : k'' = k'
        · simp [mapGet, mapSet, hk, hk', hne, h]
        · simp [mapGet, mapSet, hk, hk', ih]

theorem mapGet_mapDelete_ne {α : Type} (m : List (String × α)) (k k' : String)
    (h : k' ≠ k) : mapGet (mapDelete m k) k' = mapGet m k' := by
  have hne : k ≠ k' := fun he => h he.symm
  induction m with
  | nil => simp [mapDelete]
  | cons p rest ih =>
      obtain ⟨k'', v''⟩ := p
      by_cases hk : k'' = k
      · subst hk
        simp [mapGet, mapDelete, hne]
      · by_cases hk' : k'' = k'
        · simp [mapGet, mapDelete, hk, hk', hne, h]
        · simp [mapGet, mapDelete, hk, hk', ih]

theorem mapGet_eq_none_of_not_mem {α : Type} (m : List (String × α)) (k : String)
    (h : k ∉ mapKeys m) : mapGet m k = none := by
  induction m with
  | nil => rfl
  | cons p rest ih =>
      obtain ⟨k', v'⟩ := p
      rw [mapKeys_cons, List.mem_cons] at h
      push_neg at h
      simp only [mapGet]
      rw [if_neg (fun he => h.1 he.symm)]
      exact ih h.2

theorem mapGet_mapDelete_self {α : Type} (m : List (String × α)) (k : String)
    (hnd : (mapKeys m).Nodup) : mapGet (mapDelete m k) k = none := by
  induction m with
  | nil => rfl
  | cons p rest ih =>
      obtain ⟨k', v'⟩ := p
      rw [mapKeys_cons, List.nodup_cons] at hnd
      by_cases hk : k' = k
      · subst hk
        simp only [mapDelete, if_pos rfl]
        exact mapGet_eq_none_of_not_mem rest k' hnd.1
      · simp only [mapDelete, if_neg hk, mapGet, if_neg hk]
        exact ih hnd.2

theorem mapKeys_mapSet {α : Type} (m : List (String × α)) (k : String) (v : α) :
    mapKeys (mapSet m k v) = mapKeys m ∨ mapKeys (mapSet m k v) = mapKeys m ++ [k] := by
  induction m with
  | nil => right; simp [mapSet, mapKeys]
  | cons p rest ih =>
      obtain ⟨k', v'⟩ := p
      by_cases hk : k' = k
      · left
        subst hk
        simp [mapSet, mapKeys_cons]
      · rcases ih with h | h
        · left
          simp [mapSet, hk, mapKeys_cons, h]
        · right
          simp [mapSet, hk, mapKeys_cons, h]

theorem mapKeys_mapSet_nodup {α : Type} (m : List (String × α)) (k : String) (v : α)
    (hnd : (mapKeys m).Nodup) : (mapKeys (mapSet m k v)).Nodup := by
  induction m with
  | nil => simp [mapSet, mapKeys]
  | cons p rest ih =>
      obtain ⟨k', v'⟩ := p
      rw [mapKeys_cons, List.nodup_cons] at hnd
      by_cases hk : k' = k
      · rw [show mapSet ((k', v') :: rest) k v = (k, v) :: rest from by simp [mapSet, hk],
          mapKeys_cons, List.nodup_cons]
        rw [hk] at hnd
        exact hnd
      · simp only [mapSet, if_neg hk, mapKeys_cons, List.nodup_cons]
        refine ⟨?_, ih hnd.2⟩
        intro hmem
        rcases mapKeys_mapSet rest k v with h | h
        · rw [h] at hmem
          exact hnd.1 hmem
        · rw [h] at hmem
          rcases List.mem_append.mp hmem with h2 | h2
          · exact hnd.1 h2
          · rw [List.mem_singleton] at h2
            exact hk h2

theorem mapDelete_sublist {α : Type} (m : List (String × α)) (k : String) :
    (mapDelete m k).Sublist m := by
  induction m with
  | nil => simp [mapDelete]
  | cons p rest ih =>
      obtain ⟨k', v'⟩ := p
      by_cases hk : k' = k
      · simp only [mapDelete, if_pos hk]
        exact List.sublist_cons_self _ _
      · simp only [mapDelete, if_neg hk]
        exact ih.cons₂ _

theorem mapKeys_mapDelete_nodup {α : Type} (m : List (String × α)) (k : String)
    (hnd : (mapKeys m).Nodup) : (mapKeys (mapDelete m k)).Nodup :=
  List.Nodup.sublist (List.Sublist.map Prod.fst (mapDelete_sublist m k)) hnd

/-! ## Ephemeral Message Buffer (`messageStore`) -/

/-- The shape of an entry of the in-memory message store (the `StoredMessage`
interface of the relay handler module; the `_id` field is named `msgId`
here). -/
structure StoredMessage where
  msgId : String
  content : String
  sender : String
  senderUsername : String
  room : String
  type : String
  time : String
deriving DecidableEq, Repr

/-- The in-memory message store `messageStore : Map<string, StoredMessage[]>`,
modelled as a total function with `[]` for absent rooms (creating the empty
array on first touch and the `|| []` default of reads are both absorbed by
the default). -/
def MessageStore : Type := String → List StoredMessage

/-- The store at process start (`new Map()`). -/
def emptyMessageStore : MessageStore := fun _ => []

/-- `addMessageToStore(room, message)`: push to the room's array; if the
length now exceeds 100, `shift()` the head off. -/
def addMessageToStore (store : MessageStore) (room : String) (message : StoredMessage) :
    MessageStore := fun r =>
  if r = room then
    let messages := store room ++ [message]
    if messages.length > 100 then messages.drop 1 else messages
  else store r

/-- `getMessagesFromStore(room)`: the room's array, or `[]`. -/
def getMessagesFromStore (store : MessageStore) (room : String) : List StoredMessage :=
  store room

/-- A sequence of `addMessageToStore` calls on one room, oldest first. -/
def addMessagesToStore (store : MessageStore) (room : String)
    (messages : List StoredMessage) : MessageStore :=
  messages.foldl (fun s m => addMessageToStore s room m) store

theorem getMessagesFromStore_addMessageToStore (store : MessageStore)
    (room : String) (m : StoredMessage) :
    getMessagesFromStore (addMessageToStore store room m) room =
      (if (getMessagesFromStore store room ++ [m]).length > 100
        then (getMessagesFromStore store room ++ [m]).drop 1
        else getMessagesFromStore store room ++ [m]) := by
  simp [getMessagesFromStore, addMessageToStore]

/-- Core buffer lemma: folding appends over a room whose buffer respects the
capacity keeps exactly the capacity-bounded tail, oldest first. -/
theorem addMessagesToStore_read (room : String) (msgs : List StoredMessage) :
    ∀ store : MessageStore, (getMessagesFromStore store room).length ≤ 100 →
      getMessagesFromStore (addMessagesToStore store room msgs) room =
        (getMessagesFromStore store room ++ msgs).drop
          ((getMessagesFromStore store room).length + msgs.length - 100) := by
  induction msgs with
  | nil =>
      intro store hle
      have h0 : (getMessagesFromStore store room).length +
          ([] : List StoredMessage).length - 100 = 0 := by
        simp only [List.length_nil]
        omega
      rw [h0]
      simp [addMessagesToStore]
  | cons m ms ih =>
      intro store hle
      have hstep : getMessagesFromStore (addMessageToStore store room m) room =
          (getMessagesFromStore store room ++ [m]).drop
            ((getMessagesFromStore store room).length + 1 - 100) := by
        rw [getMessagesFromStore_addMessageToStore]
        by_cases hlen : (getMessagesFromStore store room ++ [m]).length > 100
        · rw [if_pos hlen]
          congr 1
          simp only [List.length_append, List.length_cons, List.length_nil] at hlen
          omega
        · rw [if_neg hlen]
          have h1 : (getMessagesFromStore store room).length + 1 - 100 = 0 := by
            simp only [List.length_append, List.length_cons, List.length_nil] at hlen
            omega
          rw [h1, List.drop_zero]
      have hle' : (getMessagesFromStore (addMessageToStore store room m) room).length ≤ 100 := by
        rw [hstep]
        simp only [List.length_drop, List.length_append, List.length_cons, List.length_nil]
        omega
      have hfold : addMessagesToStore store room (m :: ms) =
          addMessagesToStore (addMessageToStore store room m) room ms := by
        simp [addMessagesToStore]
      rw [hfold, ih _ hle', hstep]
      set L := (getMessagesFromStore store room).length with hL
      have hdle : L + 1 - 100 ≤ (getMessagesFromStore store room ++ [m]).length := by
        simp only [List.length_append, List.length_cons, List.length_nil, ← hL]
        omega
      have hd : (getMessagesFromStore store room ++ [m]).drop (L + 1 - 100) ++ ms =
          ((getMessagesFromStore store room ++ [m]) ++ ms).drop (L + 1 - 100) :=
        (List.drop_append_of_le_length hdle).symm
      rw [hd, List.drop_drop]
      have harr : (getMessagesFromStore store room ++ [m]) ++ ms =
          getMessagesFromStore store room ++ (m :: ms) := by
        simp
      rw [harr]
      congr 1
      simp only [List.length_drop, List.length_append, List.length_cons, List.length_nil]
      omega

/-- C3: after more than 100 appends to a room of a fresh store, reading the
room gives exactly the last 100 appended entries, oldest first. -/
theorem ephemeralBuffer_lastHundred (room : String) (msgs : List StoredMessage)
    (h : 100 < msgs.length) :
    getMessagesFromStore (addMessagesToStore emptyMessageStore room msgs) room =
        msgs.drop (msgs.length - 100) ∧
      (getMessagesFromStore (addMessagesToStore emptyMessageStore room msgs) room).length =
        100 := by
  have hread := addMessagesToStore_read room msgs emptyMessageStore
    (by simp [getMessagesFromStore, emptyMessageStore])
  have hempty : getMessagesFromStore emptyMessageStore room = [] := rfl
  rw [hempty] at hread
  simp only [List.nil_append, List.length_nil, Nat.zero_add] at hread
  refine ⟨hread, ?_⟩
  rw [hread]
  simp only [List.length_drop]
  omega

/-- C3 witness: 101 appends of a concrete message leave the last 100. -/
theorem ephemeralBuffer_lastHundred_witness :
    100 < (List.replicate 101 (StoredMessage.mk "m" "c" "s" "u" "r" "text" "t")).length ∧
      getMessagesFromStore
          (addMessagesToStore emptyMessageStore "r"
            (List.replicate 101 (StoredMessage.mk "m" "c" "s" "u" "r" "text" "t"))) "r" =
        (List.replicate 101 (StoredMessage.mk "m" "c" "s" "u" "r" "text" "t")).drop
          ((List.replicate 101 (StoredMessage.mk "m" "c" "s" "u" "r" "text" "t")).length - 100) :=
  ⟨by decide,
    (ephemeralBuffer_lastHundred "r"
      (List.replicate 101 (StoredMessage.mk "m" "c" "s" "u" "r" "text" "t"))
      (by decide)).1⟩

/-! ## Direct-message room derivation -/

/-- JavaScript `[a, b].sort()` on a two-element string array: default
string comparison, stable. -/
def jsSortPair (a b : String) : List String :=
  if a ≤ b then [a, b] else [b, a]

/-- The relay's DM room derivation (`send_private_message` handler):
`` `dm_${[socket.odlserId, data.recipientId].sort().join('_')}` ``. -/
def dmRoomSocket (odlserId recipientId : String) : String :=
  "dm_" ++ String.intercalate "_" (jsSortPair odlserId recipientId)

/-- The REST DM-history room derivation (`GET /dm/:recipientId` in
`messages.ts`, and identically `GET /dm/:friendId` in `friends.ts`):
`` `dm_${[req.userId, recipientId].sort().join('_')}` ``. -/
def dmRoomRest (userId recipientId : String) : String :=
  "dm_" ++ String.intercalate "_" (jsSortPair userId recipientId)

/-- C4: the DM room identifier is commutative, agrees between the relay and
the REST endpoints, and is `"dm_"` followed by the sorted pair joined with
`"_"`. -/
theorem dmRoom_commutative_sorted (a b : String) :
    dmRoomSocket a b = dmRoomSocket b a ∧
      dmRoomRest a b = dmRoomSocket a b ∧
      dmRoomSocket a b =
        "dm_" ++ String.intercalate "_" (List.insertionSort (· ≤ ·) [a, b]) := by
  refine ⟨?_, rfl, ?_⟩
  · unfold dmRoomSocket jsSortPair
    rcases le_total a b with h | h
    · by_cases h' : b ≤ a
      · have : a = b := le_antisymm h h'
        subst this
        simp
      · simp [h, h']
    · by_cases h' : a ≤ b
      · have : a = b := le_antisymm h' h
        subst this
        simp
      · simp [h, h']
  · unfold dmRoomSocket jsSortPair
    simp only [List.insertionSort, List.orderedInsert]

/-! ## Session Registry and Relay Protocol Handler

The relay handler module keeps two module-level maps,
`onlineUsers : Map<socketId, {odlserId, username, rooms}>` and
`userSockets : Map<odlserId, socketId>`, plus the `messageStore` above.
Each Socket.io event handler is embedded as a pure function from the
relay state (and the handler's inputs, including the answers of the
durable-store collaborator) to the new state and the list of emissions,
in emission order.  `socket.join`/`socket.leave` maintain the transport
adapter's room membership, which mirrors the `rooms` set stored in the
`onlineUsers` entry (both are updated together by the handlers), so the
model keeps only the `rooms` set. -/

/-- The value type of the `onlineUsers` map. -/
structure UserEntry where
  odlserId : String
  username : String
  rooms : List String
deriving DecidableEq, Repr

/-- The relay's module-level mutable state. -/
structure RelayState where
  onlineUsers : List (String × UserEntry)
  userSockets : List (String × String)
  messageStore : MessageStore

/-- State at module load: all three maps empty. -/
def initialRelayState : RelayState :=
  { onlineUsers := [], userSockets := [], messageStore := emptyMessageStore }

/-- The payloads of the relay's outbound events that the claims mention. -/
inductive Payload where
  | userStatusChange (odlserId username status : String)
  | userJoined (odlserId username room : String)
  | roomUsers (room : String) (users : List (String × String))
  | userLeft (odlserId username room : String)
  | receiveMessage (docId content senderId senderUsername room mtype time : String)
  | receivePrivateMessage (m : StoredMessage)
  | errorMsg (message : String)
deriving DecidableEq, Repr

/-- An emission, tagged with its delivery scope. -/
inductive Event where
  /-- `socket.emit(...)` on the named socket, or `io.to(socketId).emit(...)`. -/
  | emitToSocket (socketId : String) (p : Payload)
  /-- `socket.to(room).emit(...)`: everyone joined to the room except the sender. -/
  | emitToRoomExceptSender (senderSocketId room : String) (p : Payload)
  /-- `io.to(room).emit(...)`: everyone joined to the room. -/
  | emitToRoom (room : String) (p : Payload)
  /-- `io.emit(...)`: every connection. -/
  | broadcastAll (p : Payload)
deriving DecidableEq, Repr

/-- The `connection` callback prologue (storing the user in `onlineUsers`
and `userSockets`, then broadcasting the online status change).  The guard
is the JavaScript truthiness test `if (socket.odlserId && socket.username)`. -/
def registerConnection (s : RelayState) (socketId odlserId username : String) :
    RelayState × List Event :=
  let s' :=
    if odlserId ≠ "" ∧ username ≠ "" then
      { s with
          onlineUsers := mapSet s.onlineUsers socketId
            { odlserId := odlserId, username := username, rooms := [] },
          userSockets := mapSet s.userSockets odlserId socketId }
    else s
  (s', [Event.broadcastAll (.userStatusChange odlserId username "online")])

/-- The `room_users` member list: scan of `onlineUsers` values filtered by
room membership, projected to `{odlserId, username}`. -/
def roomUsersList (s : RelayState) (room : String) : List (String × String) :=
  ((s.onlineUsers.map Prod.snd).filter (fun u => room ∈ u.rooms)).map
    (fun u => (u.odlserId, u.username))

/-- The socket ids currently joined to a room, per the registry. -/
def roomMemberSockets (s : RelayState) (room : String) : List String :=
  (s.onlineUsers.filter (fun p => room ∈ p.2.rooms)).map Prod.fst

/-- The `join_room` handler: `socket.join(room)`; add the room to the
connection's room set (when the connection is registered); notify the other
room members; send the joining socket the current member list. -/
def joinRoomHandler (s : RelayState) (socketId odlserId username room : String) :
    RelayState × List Event :=
  let s' :=
    match mapGet s.onlineUsers socketId with
    | some u =>
        let u' : UserEntry := { u with rooms := setAdd u.rooms room }
        { s with onlineUsers := mapSet s.onlineUsers socketId u' }
    | none => s
  (s', [Event.emitToRoomExceptSender socketId room (.userJoined odlserId username room),
        Event.emitToSocket socketId (.roomUsers room (roomUsersList s' room))])

/-- The `leave_room` handler. -/
def leaveRoomHandler (s : RelayState) (socketId odlserId username room : String) :
    RelayState × List Event :=
  let s' :=
    match mapGet s.onlineUsers socketId with
    | some u =>
        let u' : UserEntry := { u with rooms := u.rooms.erase room }
        { s with onlineUsers := mapSet s.onlineUsers socketId u' }
    | none => s
  (s', [Event.emitToRoomExceptSender socketId room (.userLeft odlserId username room)])

/-- The `send_message` handler.  `storeOk` is the durable-store collaborator:
`true` means the `addDoc` write resolves (returning document id `docId`),
`false` means it rejects.  The write and the room broadcast sit in the same
`try` block, with a `catch` that emits an `error` event to the sender. -/
def sendMessageHandler (s : RelayState) (socketId odlserId username : String)
    (room content : String) (dataType : Option String)
    (storeOk : Bool) (docId now : String) : RelayState × List Event :=
  if storeOk then
    (s, [Event.emitToRoom room
          (.receiveMessage docId content odlserId username room (dataType.getD "text") now)])
  else
    (s, [Event.emitToSocket socketId (.errorMsg "Failed to send message")])

/-- The `send_private_message` handler.  `odlserId` is `none` when the socket
has no authenticated user id (the handler answers with an `error` event).
The Firestore persistence write sits in a nested `try`/`catch` of its own and
cannot affect the state or the emissions, so it is not a parameter.  `msgId`
models `generateMessageId()` and `now` the timestamp. -/
def sendPrivateMessageHandler (s : RelayState) (socketId : String)
    (odlserId : Option String) (username : Option String)
    (recipientId content : String) (dataType : Option String)
    (msgId now : String) : RelayState × List Event :=
  match odlserId with
  | none => (s, [Event.emitToSocket socketId (.errorMsg "Authentication required")])
  | some uid =>
      let dmRoom := dmRoomSocket uid recipientId
      let m : StoredMessage :=
        { msgId := msgId, content := content, sender := uid,
          senderUsername := username.getD "Unknown", room := dmRoom,
          type := dataType.getD "text", time := now }
      let s' := { s with messageStore := addMessageToStore s.messageStore dmRoom m }
      let recipientEvents :=
        match mapGet s.userSockets recipientId with
        | some recipientSocketId =>
            [Event.emitToSocket recipientSocketId (.receivePrivateMessage m)]
        | none => []
      (s', Event.emitToSocket socketId (.receivePrivateMessage m) :: recipientEvents)

/-- The `disconnect` handler: notify each room the connection was in, write
presence offline to the durable store (best-effort: wrapped in its own
`try`/`catch`, so it cannot affect the rest), remove both map entries,
broadcast the offline status change.  The `userSockets` delete is guarded by
the truthiness of `socket.odlserId`. -/
def disconnectHandler (s : RelayState) (socketId odlserId username : String) :
    RelayState × List Event :=
  let leaveEvents :=
    match mapGet s.onlineUsers socketId with
    | some u => u.rooms.map (fun room =>
        Event.emitToRoomExceptSender socketId room (.userLeft odlserId username room))
    | none => []
  let s' := { s with
      onlineUsers := mapDelete s.onlineUsers socketId,
      userSockets :=
        if odlserId ≠ "" then mapDelete s.userSockets odlserId else s.userSockets }
  (s', leaveEvents ++ [Event.broadcastAll (.userStatusChange odlserId username "offline")])

theorem setAdd_mem (l : List String) (x : String) : x ∈ setAdd l x := by
  unfold setAdd
  by_cases h : x ∈ l
  · simp [h]
  · simp [h]

theorem mapSet_eq_of_get {α : Type} (m : List (String × α)) (k : String) (v : α)
    (h : mapGet m k = some v) : mapSet m k v = m := by
  induction m with
  | nil => simp [mapGet] at h
  | cons p rest ih =>
      obtain ⟨k', v'⟩ := p
      by_cases hk : k' = k
      · simp only [mapGet, if_pos hk] at h
        injection h with h2
        simp only [mapSet, if_pos hk]
        rw [← hk, ← h2]
      · simp only [mapGet, if_neg hk] at h
        simp only [mapSet, if_neg hk]
        rw [ih h]

/-! ## C1: `send_message` under durable-store failure -/

/-- A state with two authenticated connections both joined to `"general"`:
`s1`/`u1`/`alice` and `s2`/`u2`/`bob`. -/
def relayStateTwoInGeneral : RelayState :=
  (joinRoomHandler
    (joinRoomHandler
      (registerConnection
        (registerConnection initialRelayState "s1" "u1" "alice").1
        "s2" "u2" "bob").1
      "s1" "u1" "alice" "general").1
    "s2" "u2" "bob" "general").1

/-- C1 counterexample: with `s1` and `s2` both joined to `"general"`, a
`send_message` from `s1` whose durable-store write fails emits only the
`error` event to `s1` — in particular no `receive_message` fan-out reaches
the joined room members, because the room broadcast sits after the awaited
store write inside the same `try` block.  This refutes the claim that the
message is still delivered to every joined connection on store failure. -/
theorem sendMessage_storeFailure_counterexample :
    roomMemberSockets relayStateTwoInGeneral "general" = ["s1", "s2"] ∧
      (sendMessageHandler relayStateTwoInGeneral "s1" "u1" "alice" "general" "hi"
          none false "d1" "t1").2 =
        [Event.emitToSocket "s1" (.errorMsg "Failed to send message")] := by
  exact ⟨by decide, rfl⟩

/-- C1 amended: when the durable-store write of `send_message` fails, the
handler emits exactly the `error` event to the originating connection and
nothing else — the in-memory fan-out to the room does not happen, and the
relay state is unchanged.  The room broadcast is emitted only when the
durable write succeeds.  (The best-effort behaviour the claim describes
holds only for `send_private_message`, whose persistence failure is
swallowed by a nested `try`/`catch`.) -/
theorem sendMessage_storeFailure_amended (s : RelayState)
    (socketId odlserId username room content : String) (dataType : Option String)
    (docId now : String) :
    (sendMessageHandler s socketId odlserId username room content dataType
        false docId now).2 =
      [Event.emitToSocket socketId (.errorMsg "Failed to send message")] ∧
    (sendMessageHandler s socketId odlserId username room content dataType
        false docId now).1 = s ∧
    (sendMessageHandler s socketId odlserId username room content dataType
        true docId now).2 =
      [Event.emitToRoom room
        (.receiveMessage docId content odlserId username room (dataType.getD "text") now)] :=
  ⟨rfl, rfl, rfl⟩

/-! ## C7: `join_room` idempotence -/

theorem joinRoomHandler_emits_roomUsers (s : RelayState) (sid uid uname room : String) :
    Event.emitToSocket sid
        (.roomUsers room (roomUsersList (joinRoomHandler s sid uid uname room).1 room)) ∈
      (joinRoomHandler s sid uid uname room).2 := by
  unfold joinRoomHandler
  cases h : mapGet s.onlineUsers sid <;> simp [h]

theorem joinRoomHandler_onlineUsers_nodup (s : RelayState) (sid uid uname room : String)
    (hnd : (mapKeys s.onlineUsers).Nodup) :
    (mapKeys ((joinRoomHandler s sid uid uname room).1).onlineUsers).Nodup := by
  unfold joinRoomHandler
  cases h : mapGet s.onlineUsers sid
  · simpa using hnd
  · simpa using mapKeys_mapSet_nodup _ _ _ hnd

/-- C7: joining the same room twice on the same connection leaves the
registry exactly as after the first join (membership is a no-op), the
connection appears at most once among the room's member sockets, and the
second join still emits the `room_users` member list to the joining
connection. -/
theorem joinRoom_idempotent (s : RelayState) (sid uid uname room : String)
    (hnd : (mapKeys s.onlineUsers).Nodup) :
    ((joinRoomHandler (joinRoomHandler s sid uid uname room).1 sid uid uname room).1).onlineUsers
        = ((joinRoomHandler s sid uid uname room).1).onlineUsers ∧
      (roomMemberSockets
          (joinRoomHandler (joinRoomHandler s sid uid uname room).1 sid uid uname room).1
          room).count sid ≤ 1 ∧
      Event.emitToSocket sid
          (.roomUsers room
            (roomUsersList
              (joinRoomHandler (joinRoomHandler s sid uid uname room).1 sid uid uname room).1
              room)) ∈
        (joinRoomHandler (joinRoomHandler s sid uid uname room).1 sid uid uname room).2 := by
  have hsame :
      ((joinRoomHandler (joinRoomHandler s sid uid uname room).1 sid uid uname room).1).onlineUsers
        = ((joinRoomHandler s sid uid uname room).1).onlineUsers := by
    unfold joinRoomHandler
    cases h : mapGet s.onlineUsers sid
    · simp only [h]
    · rename_i u
      simp only [h]
      have hget1 : mapGet (mapSet s.onlineUsers sid { u with rooms := setAdd u.rooms room }) sid
          = some { u with rooms := setAdd u.rooms room } := mapGet_mapSet_self _ _ _
      simp only [hget1]
      have hrooms : setAdd (setAdd u.rooms room) room = setAdd u.rooms room := by
        unfold setAdd
        by_cases hmem : room ∈ u.rooms
        · simp [hmem]
        · simp [hmem, setAdd]
      simp [hrooms, mapSet_eq_of_get _ _ _ hget1]
  refine ⟨hsame, ?_, joinRoomHandler_emits_roomUsers _ _ _ _ _⟩
  have hnd2 : (mapKeys
      ((joinRoomHandler (joinRoomHandler s sid uid uname room).1 sid uid uname room).1).onlineUsers).Nodup :=
    joinRoomHandler_onlineUsers_nodup _ _ _ _ _
      (joinRoomHandler_onlineUsers_nodup _ _ _ _ _ hnd)
  have hsockets : (roomMemberSockets
      (joinRoomHandler (joinRoomHandler s sid uid uname room).1 sid uid uname room).1
      room).Nodup := by
    unfold roomMemberSockets
    exact List.Nodup.sublist
      (List.Sublist.map Prod.fst (List.filter_sublist _))
      hnd2
  exact List.nodup_iff_count_le_one.mp hsockets sid

/-- C7 witness state: one registered connection. -/
def relayStateOneUser : RelayState :=
  (registerConnection initialRelayState "s1" "u1" "alice").1

theorem joinRoom_idempotent_witness :
    (mapKeys relayStateOneUser.onlineUsers).Nodup ∧
      ((joinRoomHandler (joinRoomHandler relayStateOneUser "s1" "u1" "alice" "general").1
            "s1" "u1" "alice" "general").1).onlineUsers
        = ((joinRoomHandler relayStateOneUser "s1" "u1" "alice" "general").1).onlineUsers :=
  ⟨by decide, (joinRoom_idempotent relayStateOneUser "s1" "u1" "alice" "general" (by decide)).1⟩

/-! ## C10: self-addressed private message -/

/-- C10: a `send_private_message` whose `recipientId` is the sender's own
user id, while that id is registered to the sender's own socket, emits the
`receive_private_message` event to the sender's socket exactly twice (the
sender echo and the recipient delivery), not once. -/
theorem selfPrivateMessage_doubleDelivery (s : RelayState)
    (sid uid content msgId now : String) (uname dataType : Option String)
    (hself : mapGet s.userSockets uid = some sid) :
    ((sendPrivateMessageHandler s sid (some uid) uname uid content dataType msgId now).2.count
        (Event.emitToSocket sid
          (.receivePrivateMessage
            { msgId := msgId, content := content, sender := uid,
              senderUsername := uname.getD "Unknown", room := dmRoomSocket uid uid,
              type := dataType.getD "text", time := now }))) = 2 ∧
      (sendPrivateMessageHandler s sid (some uid) uname uid content dataType msgId now).2.length
        = 2 := by
  unfold sendPrivateMessageHandler
  simp [hself, List.count_cons]

theorem selfPrivateMessage_doubleDelivery_witness :
    mapGet relayStateOneUser.userSockets "u1" = some "s1" ∧
      ((sendPrivateMessageHandler relayStateOneUser "s1" (some "u1") (some "alice") "u1"
            "hello" none "m1" "t1").2.count
          (Event.emitToSocket "s1"
            (.receivePrivateMessage
              { msgId := "m1", content := "hello", sender := "u1",
                senderUsername := (some "alice").getD "Unknown",
                room := dmRoomSocket "u1" "u1",
                type := (none : Option String).getD "text", time := "t1" }))) = 2 :=
  ⟨by decide,
    (selfPrivateMessage_doubleDelivery relayStateOneUser "s1" "u1" "hello" "m1" "t1"
      (some "alice") none (by decide)).1⟩

/-! ## C6: Session Registry map consistency -/

/-- Mutual consistency of the two Session Registry maps: every connection in
`onlineUsers` has exactly one identity, and resolving that identity in
`userSockets` returns the same connection (and conversely every `userSockets`
entry is backed by a matching `onlineUsers` entry). -/
def registryConsistent (s : RelayState) : Prop :=
  (∀ sid u, mapGet s.onlineUsers sid = some u →
      mapGet s.userSockets u.odlserId = some sid) ∧
  (∀ uid sid, mapGet s.userSockets uid = some sid →
      ∃ u, mapGet s.onlineUsers sid = some u ∧ u.odlserId = uid)

/-- Strengthened induction invariant: consistency plus key uniqueness of both
maps plus non-empty identity ids of registered entries. -/
def registryWF (s : RelayState) : Prop :=
  registryConsistent s ∧
    (mapKeys s.onlineUsers).Nodup ∧
    (mapKeys s.userSockets).Nodup ∧
    (∀ sid u, mapGet s.onlineUsers sid = some u → u.odlserId ≠ "")

/-- The state after a re-registration of the identity `u1` that already has
the live connection `s1`, now from the fresh connection `s2` (the overwrite
scenario the registration policy of the spec flags). -/
def relayStateReRegistered : RelayState :=
  (registerConnection
    (registerConnection initialRelayState "s1" "u1" "alice").1
    "s2" "u1" "alice").1

/-- C6 counterexample: after registering identity `u1` on connection `s1`
and then re-registering `u1` on connection `s2`, the connection `s1` is
still present in `onlineUsers` with identity `u1`, but resolving `u1` in
`userSockets` returns `s2`, not `s1` — the mutual-consistency invariant
fails in a state reachable by register operations alone. -/
theorem sessionRegistry_counterexample :
    mapGet relayStateReRegistered.onlineUsers "s1" =
        some { odlserId := "u1", username := "alice", rooms := [] } ∧
      mapGet relayStateReRegistered.userSockets "u1" = some "s2" ∧
      ¬ registryConsistent relayStateReRegistered := by
  refine ⟨by decide, by decide, ?_⟩
  intro hcons
  have h1 : mapGet relayStateReRegistered.onlineUsers "s1" =
      some { odlserId := "u1", username := "alice", rooms := [] } := by decide
  have h2 := hcons.1 "s1" { odlserId := "u1", username := "alice", rooms := [] } h1
  have h3 : mapGet relayStateReRegistered.userSockets "u1" = some "s2" := by decide
  rw [h3] at h2
  exact absurd (Option.some.inj h2) (by decide)

/-- Reachability of the Session Registry under the single-device discipline:
register only on a fresh connection whose identity has no live connection
(with truthy fields), and disconnect only a currently-registered connection
with its own identity fields.  Re-registration of a live identity is exactly
what the counterexample exercises and is excluded here. -/
inductive ReachableSD : RelayState → Prop where
  | init : ReachableSD initialRelayState
  | register (s : RelayState) (sid uid uname : String) : ReachableSD s →
      uid ≠ "" → uname ≠ "" →
      mapGet s.onlineUsers sid = none → mapGet s.userSockets uid = none →
      ReachableSD (registerConnection s sid uid uname).1
  | join (s : RelayState) (sid uid uname room : String) : ReachableSD s →
      ReachableSD (joinRoomHandler s sid uid uname room).1
  | leave (s : RelayState) (sid uid uname room : String) : ReachableSD s →
      ReachableSD (leaveRoomHandler s sid uid uname room).1
  | disconnect (s : RelayState) (sid uid uname : String) (u : UserEntry) : ReachableSD s →
      mapGet s.onlineUsers sid = some u → u.odlserId = uid →
      ReachableSD (disconnectHandler s sid uid uname).1

theorem registryWF_register (s : RelayState) (sid uid uname : String)
    (hwf : registryWF s) (huid : uid ≠ "") (huname : uname ≠ "")
    (hfresh : mapGet s.onlineUsers sid = none)
    (hsingle : mapGet s.userSockets uid = none) :
    registryWF (registerConnection s sid uid uname).1 := by
  obtain ⟨⟨inv1, inv2⟩, hndOU, hndUS, hne⟩ := hwf
  have hguard : uid ≠ "" ∧ uname ≠ "" := ⟨huid, huname⟩
  unfold registerConnection
  simp only [if_pos hguard]
  refine ⟨⟨?_, ?_⟩, ?_, ?_, ?_⟩
  · intro sid' u' hget
    by_cases hs : sid' = sid
    · subst hs
      rw [mapGet_mapSet_self] at hget
      cases Option.some.inj hget
      exact mapGet_mapSet_self _ _ _
    · rw [mapGet_mapSet_ne _ _ _ _ hs] at hget
      have hold := inv1 sid' u' hget
      by_cases hu : u'.odlserId = uid
      · rw [hu] at hold
        rw [hold] at hsingle
        exact absurd hsingle (by simp)
      · rw [mapGet_mapSet_ne _ _ _ _ hu]
        exact hold
  · intro uid' sid' hget
    by_cases hu : uid' = uid
    · subst hu
      rw [mapGet_mapSet_self] at hget
      cases Option.some.inj hget
      exact ⟨_, mapGet_mapSet_self _ _ _, rfl⟩
    · rw [mapGet_mapSet_ne _ _ _ _ hu] at hget
      obtain ⟨u', hget', hid'⟩ := inv2 uid' sid' hget
      by_cases hs : sid' = sid
      · subst hs
        rw [hget'] at hfresh
        exact absurd hfresh (by simp)
      · exact ⟨u', by rw [mapGet_mapSet_ne _ _ _ _ hs]; exact hget', hid'⟩
  · exact mapKeys_mapSet_nodup _ _ _ hndOU
  · exact mapKeys_mapSet_nodup _ _ _ hndUS
  · intro sid' u' hget
    by_cases hs : sid' = sid
    · subst hs
      rw [mapGet_mapSet_self] at hget
      cases Option.some.inj hget
      exact huid
    · rw [mapGet_mapSet_ne _ _ _ _ hs] at hget
      exact hne sid' u' hget

/-- `join_room` and `leave_room` only rewrite the `rooms` field of an
existing entry; this preserves the registry invariant. -/
theorem registryWF_updateRooms (s : RelayState) (sid : String) (u1 u2 : UserEntry)
    (hget : mapGet s.onlineUsers sid = some u1) (hid : u2.odlserId = u1.odlserId)
    (hwf : registryWF s) :
    registryWF { s with onlineUsers := mapSet s.onlineUsers sid u2 } := by
  obtain ⟨⟨inv1, inv2⟩, hndOU, hndUS, hne⟩ := hwf
  refine ⟨⟨?_, ?_⟩, ?_, ?_, ?_⟩
  · intro sid' u' hget'
    by_cases hs : sid' = sid
    · subst hs
      rw [mapGet_mapSet_self] at hget'
      cases Option.some.inj hget'
      rw [hid]
      exact inv1 sid' u1 hget
    · rw [mapGet_mapSet_ne _ _ _ _ hs] at hget'
      exact inv1 sid' u' hget'
  · intro uid' sid' hget'
    obtain ⟨u', hou, hid'⟩ := inv2 uid' sid' hget'
    by_cases hs : sid' = sid
    · subst hs
      rw [hget] at hou
      cases Option.some.inj hou
      refine ⟨u2, mapGet_mapSet_self _ _ _, ?_⟩
      rw [hid]
      exact hid'
    · exact ⟨u', by rw [mapGet_mapSet_ne _ _ _ _ hs]; exact hou, hid'⟩
  · exact mapKeys_mapSet_nodup _ _ _ hndOU
  · exact hndUS
  · intro sid' u' hget'
    by_cases hs : sid' = sid
    · subst hs
      rw [mapGet_mapSet_self] at hget'
      cases Option.some.inj hget'
      rw [hid]
      exact hne sid' u1 hget
    · rw [mapGet_mapSet_ne _ _ _ _ hs] at hget'
      exact hne sid' u' hget'

theorem registryWF_disconnect (s : RelayState) (sid uid uname : String) (u : UserEntry)
    (hwf : registryWF s) (hget : mapGet s.onlineUsers sid = some u)
    (hid : u.odlserId = uid) :
    registryWF (disconnectHandler s sid uid uname).1 := by
  obtain ⟨⟨inv1, inv2⟩, hndOU, hndUS, hne⟩ := hwf
  have huid : uid ≠ "" := by
    rw [← hid]
    exact hne sid u hget
  have hus : mapGet s.userSockets uid = some sid := by
    rw [← hid]
    exact inv1 sid u hget
  unfold disconnectHandler
  simp only [if_pos huid]
  refine ⟨⟨?_, ?_⟩, ?_, ?_, ?_⟩
  · intro sid' u' hget'
    by_cases hs : sid' = sid
    · subst hs
      rw [mapGet_mapDelete_self _ _ hndOU] at hget'
      exact absurd hget' (by simp)
    · rw [mapGet_mapDelete_ne _ _ _ hs] at hget'
      have hold := inv1 sid' u' hget'
      by_cases hu : u'.odlserId = uid
      · rw [hu, hus] at hold
        exact absurd (Option.some.inj hold) (fun he => hs he.symm)
      · rw [mapGet_mapDelete_ne _ _ _ hu]
        exact hold
  · intro uid' sid' hget'
    by_cases hu : uid' = uid
    · subst hu
      rw [mapGet_mapDelete_self _ _ hndUS] at hget'
      exact absurd hget' (by simp)
    · rw [mapGet_mapDelete_ne _ _ _ hu] at hget'
      obtain ⟨u', hou, hid'⟩ := inv2 uid' sid' hget'
      by_cases hs : sid' = sid
      · subst hs
        rw [hget] at hou
        cases Option.some.inj hou
        rw [hid] at hid'
        exact absurd hid' (fun he => hu he.symm)
      · exact ⟨u', by rw [mapGet_mapDelete_ne _ _ _ hs]; exact hou, hid'⟩
  · exact mapKeys_mapDelete_nodup _ _ hndOU
  · exact mapKeys_mapDelete_nodup _ _ hndUS
  · intro sid' u' hget'
    by_cases hs : sid' = sid
    · subst hs
      rw [mapGet_mapDelete_self _ _ hndOU] at hget'
      exact absurd hget' (by simp)
    · rw [mapGet_mapDelete_ne _ _ _ hs] at hget'
      exact hne sid' u' hget'

theorem registryWF_of_reachableSD (s : RelayState) (h : ReachableSD s) :
    registryWF s := by
  induction h with
  | init =>
      refine ⟨⟨?_, ?_⟩, ?_, ?_, ?_⟩ <;>
        simp [initialRelayState, mapGet, mapKeys]
  | register s sid uid uname _ huid huname hfresh hsingle ih =>
      exact registryWF_register s sid uid uname ih huid huname hfresh hsingle
  | join s sid uid uname room _ ih =>
      unfold joinRoomHandler
      cases hm : mapGet s.onlineUsers sid
      · simpa [hm] using ih
      · rename_i u
        simp only [hm]
        exact registryWF_updateRooms s sid u _ hm rfl ih
  | leave s sid uid uname room _ ih =>
      unfold leaveRoomHandler
      cases hm : mapGet s.onlineUsers sid
      · simpa [hm] using ih
      · rename_i u
        simp only [hm]
        exact registryWF_updateRooms s sid u _ hm rfl ih
  | disconnect s sid uid uname u _ hget hid ih =>
      exact registryWF_disconnect s sid uid uname u ih hget hid

/-- C6 amended: the mutual-consistency invariant of the two Session Registry
maps holds in every state reachable by register / joinRoom / leaveRoom /
unregister under the single-device discipline (an identity is never
re-registered while it still has a live connection).  Re-registering a live
identity — the case the original claim includes — breaks the invariant: the
old connection stays in `onlineUsers` while `userSockets` already points to
the new connection (see the counterexample). -/
theorem sessionRegistry_consistent_of_reachableSD (s : RelayState)
    (h : ReachableSD s) : registryConsistent s :=
  (registryWF_of_reachableSD s h).1

theorem sessionRegistry_consistent_witness :
    ReachableSD relayStateOneUser ∧ registryConsistent relayStateOneUser := by
  have hreach : ReachableSD relayStateOneUser :=
    ReachableSD.register initialRelayState "s1" "u1" "alice" ReachableSD.init
      (by decide) (by decide) (by decide) (by decide)
  exact ⟨hreach, sessionRegistry_consistent_of_reachableSD relayStateOneUser hreach⟩

/-! ## C2: the Socket.io authentication middleware

The `io.use` middleware reads `token`, `firebaseUid` and `username` from the
handshake auth payload, queries the `users` collection by `firebaseUid`, sets
the socket's identity fields, writes presence online to the durable store,
and calls `next()`.  Its whole body sits in one `try` whose `catch` calls
`next(new Error('Authentication failed'))`.  `userQuery` models the Firestore
query result: the matching user document's id and its (optional) `username`
field.  `presenceOk` models the presence `updateDoc`. -/

/-- JavaScript truthiness of an optional string (absent or empty is falsy). -/
def truthy : Option String → Bool
  | none => false
  | some s => s ≠ ""

/-- The identity fields the middleware stores on the socket on success:
`odlserId` (the user document id), `username`
(`userData.username || username`), `firebaseUid`. -/
structure SocketAuthFields where
  odlserId : String
  username : Option String
  firebaseUid : String
deriving DecidableEq, Repr

/-- The `io.use` authentication middleware. -/
def socketAuthMiddleware (token firebaseUid authUsername : Option String)
    (userQuery : String → Option (String × Option String))
    (presenceOk : Bool) : Except String SocketAuthFields :=
  if ¬ truthy token ∨ ¬ truthy firebaseUid then
    .error "Authentication required"
  else
    match userQuery (firebaseUid.getD "") with
    | none => .error "User not found"
    | some (docId, userDataUsername) =>
        let finalUsername :=
          match userDataUsername with
          | some u => if u ≠ "" then some u else authUsername
          | none => authUsername
        if presenceOk then
          .ok { odlserId := docId, username := finalUsername,
                firebaseUid := firebaseUid.getD "" }
        else
          -- the awaited presence updateDoc rejects; the catch turns this
          -- into next(new Error('Authentication failed'))
          .error "Authentication failed"

/-- A user directory with exactly one user, document id `u1`, username
`alice`, external uid `f1`. -/
def singleUserQuery : String → Option (String × Option String) :=
  fun fuid => if fuid = "f1" then some ("u1", some "alice") else none

/-- C2 counterexample: with a valid credential and an external uid the
Identity Resolver accepts, a failing presence-set-to-online write makes the
middleware reject the handshake with `Authentication failed` — the
connection is not accepted, contrary to the claim that the presence write
is best-effort. -/
theorem handshake_presenceFailure_counterexample :
    socketAuthMiddleware (some "t") (some "f1") (some "alice") singleUserQuery false =
      .error "Authentication failed" := by
  rfl

/-- C2 amended: for every handshake with a truthy credential and a truthy
external uid that the user query resolves, the connection is accepted
exactly when the presence-set-to-online write succeeds; if that write
fails, the middleware's catch rejects the handshake with
`Authentication failed`. -/
theorem handshake_presenceFailure_amended (token firebaseUid authUsername : Option String)
    (userQuery : String → Option (String × Option String))
    (docId : String) (userDataUsername : Option String)
    (htok : truthy token = true) (hfuid : truthy firebaseUid = true)
    (hq : userQuery (firebaseUid.getD "") = some (docId, userDataUsername)) :
    socketAuthMiddleware token firebaseUid authUsername userQuery false =
        .error "Authentication failed" ∧
      socketAuthMiddleware token firebaseUid authUsername userQuery true =
        .ok { odlserId := docId,
              username :=
                match userDataUsername with
                | some u => if u ≠ "" then some u else authUsername
                | none => authUsername,
              firebaseUid := firebaseUid.getD "" } := by
  unfold socketAuthMiddleware
  rw [htok, hfuid]
  simp [hq]
  cases userDataUsername <;> rfl

theorem handshake_presenceFailure_amended_witness :
    truthy (some "t") = true ∧ truthy (some "f1") = true ∧
      singleUserQuery ((some "f1").getD "") = some ("u1", some "alice") ∧
      socketAuthMiddleware (some "t") (some "f1") (some "alice") singleUserQuery true =
        .ok { odlserId := "u1", username := some "alice", firebaseUid := "f1" } :=
  ⟨by decide, by decide, by decide,
    by
      have h := (handshake_presenceFailure_amended (some "t") (some "f1") (some "alice")
        singleUserQuery "u1" (some "alice") (by decide) (by decide) (by decide)).2
      simpa using h⟩

/-! ## C8: friend-request lifecycle (`friends.ts` accept/reject routes) -/

/-- A `friendRequests` document. -/
structure FriendRequestDoc where
  senderId : String
  recipientId : String
  status : String
deriving DecidableEq, Repr

/-- A `users` document (only the fields the friend routes touch). -/
structure UserDoc where
  username : String
  friends : List String
deriving DecidableEq, Repr

/-- The slice of the durable store the friend routes read and write. -/
structure FriendsDb where
  requests : List (String × FriendRequestDoc)
  users : List (String × UserDoc)
deriving DecidableEq, Repr

/-- The HTTP responses the accept/reject routes can produce. -/
inductive ApiResponse where
  | ok (message : String)
  | notFound (error : String)
  | serverError (error : String)
deriving DecidableEq, Repr

/-- Firestore `arrayUnion`: append the element unless already present. -/
def arrayUnion (l : List String) (x : String) : List String :=
  if x ∈ l then l else l ++ [x]

/-- `POST /accept/:requestId`: look the request up; answer 404 unless it
exists, is addressed to the caller, and is still pending; then set its
status to `accepted` and `arrayUnion` each party into the other's friends
list.  An `updateDoc` on a missing user document rejects and the catch
answers 500. -/
def acceptFriendRequest (db : FriendsDb) (userId requestId : String) :
    FriendsDb × ApiResponse :=
  match mapGet db.requests requestId with
  | none => (db, .notFound "Friend request not found")
  | some reqd =>
      if reqd.recipientId ≠ userId ∨ reqd.status ≠ "pending" then
        (db, .notFound "Friend request not found")
      else
        let reqd' : FriendRequestDoc := { reqd with status := "accepted" }
        let db1 : FriendsDb := { db with requests := mapSet db.requests requestId reqd' }
        match mapGet db1.users userId with
        | none => (db1, .serverError "Failed to accept friend request")
        | some me =>
            let me' : UserDoc := { me with friends := arrayUnion me.friends reqd.senderId }
            let db2 : FriendsDb := { db1 with users := mapSet db1.users userId me' }
            match mapGet db2.users reqd.senderId with
            | none => (db2, .serverError "Failed to accept friend request")
            | some senderDoc =>
                let senderDoc' : UserDoc :=
                  { senderDoc with friends := arrayUnion senderDoc.friends userId }
                let db3 : FriendsDb :=
                  { db2 with users := mapSet db2.users reqd.senderId senderDoc' }
                (db3, .ok "Friend request accepted")

/-- `POST /reject/:requestId`: same guard; on success only the request
status is set to `rejected`. -/
def rejectFriendRequest (db : FriendsDb) (userId requestId : String) :
    FriendsDb × ApiResponse :=
  match mapGet db.requests requestId with
  | none => (db, .notFound "Friend request not found")
  | some reqd =>
      if reqd.recipientId ≠ userId ∨ reqd.status ≠ "pending" then
        (db, .notFound "Friend request not found")
      else
        let reqd' : FriendRequestDoc := { reqd with status := "rejected" }
        ({ db with requests := mapSet db.requests requestId reqd' },
          .ok "Friend request rejected")

theorem arrayUnion_mem (l : List String) (x : String) : x ∈ arrayUnion l x := by
  unfold arrayUnion
  by_cases h : x ∈ l
  · simp [h]
  · simp [h]

/-- C8: a pending friend request addressed to the caller transitions to a
terminal state exactly once, by the recipient's action, for both terminal
states.  Accept answers 200, the request becomes terminally `accepted`, and
both parties appear in each other's friends lists (symmetric addition);
reject answers 200 and the request becomes terminally `rejected`.  After
either terminal state, any further accept or reject on the same request
answers 404 without mutating the store, and a caller other than the
recipient can neither accept nor reject the pending request. -/
theorem friendRequest_lifecycle (db : FriendsDb) (requestId : String)
    (reqd : FriendRequestDoc) (me senderDoc : UserDoc)
    (hreq : mapGet db.requests requestId = some reqd)
    (hpend : reqd.status = "pending")
    (hme : mapGet db.users reqd.recipientId = some me)
    (hsender : mapGet db.users reqd.senderId = some senderDoc)
    (hne : reqd.senderId ≠ reqd.recipientId) :
    (acceptFriendRequest db reqd.recipientId requestId).2 =
        .ok "Friend request accepted" ∧
      mapGet ((acceptFriendRequest db reqd.recipientId requestId).1).requests requestId =
        some { reqd with status := "accepted" } ∧
      (∃ u, mapGet ((acceptFriendRequest db reqd.recipientId requestId).1).users
          reqd.recipientId = some u ∧ reqd.senderId ∈ u.friends) ∧
      (∃ u, mapGet ((acceptFriendRequest db reqd.recipientId requestId).1).users
          reqd.senderId = some u ∧ reqd.recipientId ∈ u.friends) ∧
      acceptFriendRequest (acceptFriendRequest db reqd.recipientId requestId).1
          reqd.recipientId requestId =
        ((acceptFriendRequest db reqd.recipientId requestId).1,
          .notFound "Friend request not found") ∧
      rejectFriendRequest (acceptFriendRequest db reqd.recipientId requestId).1
          reqd.recipientId requestId =
        ((acceptFriendRequest db reqd.recipientId requestId).1,
          .notFound "Friend request not found") ∧
      (∀ other, other ≠ reqd.recipientId →
        acceptFriendRequest db other requestId =
          (db, .notFound "Friend request not found")) ∧
      (rejectFriendRequest db reqd.recipientId requestId).2 =
        .ok "Friend request rejected" ∧
      mapGet ((rejectFriendRequest db reqd.recipientId requestId).1).requests requestId =
        some { reqd with status := "rejected" } ∧
      ((rejectFriendRequest db reqd.recipientId requestId).1).users = db.users ∧
      acceptFriendRequest (rejectFriendRequest db reqd.recipientId requestId).1
          reqd.recipientId requestId =
        ((rejectFriendRequest db reqd.recipientId requestId).1,
          .notFound "Friend request not found") ∧
      rejectFriendRequest (rejectFriendRequest db reqd.recipientId requestId).1
          reqd.recipientId requestId =
        ((rejectFriendRequest db reqd.recipientId requestId).1,
          .notFound "Friend request not found") ∧
      ∀ other, other ≠ reqd.recipientId →
        rejectFriendRequest db other requestId =
          (db, .notFound "Friend request not found") := by
  have hguard : ¬ (reqd.recipientId ≠ reqd.recipientId ∨ reqd.status ≠ "pending") := by
    simp [hpend]
  have hrs : reqd.recipientId ≠ reqd.senderId := fun he => hne he.symm
  have husers2 : mapGet (mapSet db.users reqd.recipientId
      { me with friends := arrayUnion me.friends reqd.senderId }) reqd.senderId =
        some senderDoc := by
    rw [mapGet_mapSet_ne _ _ _ _ hne]
    exact hsender
  have haccept : acceptFriendRequest db reqd.recipientId requestId =
      ({ requests := mapSet db.requests requestId { reqd with status := "accepted" },
         users := mapSet
           (mapSet db.users reqd.recipientId
             { me with friends := arrayUnion me.friends reqd.senderId })
           reqd.senderId
           { senderDoc with friends := arrayUnion senderDoc.friends reqd.recipientId } },
        .ok "Friend request accepted") := by
    unfold acceptFriendRequest
    rw [hreq]
    dsimp only
    rw [if_neg hguard]
    simp only [hme, husers2]
  have hreject : rejectFriendRequest db reqd.recipientId requestId =
      ({ requests := mapSet db.requests requestId { reqd with status := "rejected" },
         users := db.users },
        .ok "Friend request rejected") := by
    unfold rejectFriendRequest
    rw [hreq]
    dsimp only
    rw [if_neg hguard]
  refine ⟨?_, ?_, ?_, ?_, ?_, ?_, ?_, ?_, ?_, ?_, ?_, ?_, ?_⟩
  · rw [haccept]
  · rw [haccept]
    exact mapGet_mapSet_self _ _ _
  · rw [haccept]
    dsimp only
    refine ⟨{ me with friends := arrayUnion me.friends reqd.senderId }, ?_, ?_⟩
    · rw [mapGet_mapSet_ne _ _ _ _ hrs]
      exact mapGet_mapSet_self _ _ _
    · exact arrayUnion_mem _ _
  · rw [haccept]
    dsimp only
    refine ⟨{ senderDoc with friends := arrayUnion senderDoc.friends reqd.recipientId },
      ?_, ?_⟩
    · exact mapGet_mapSet_self _ _ _
    · exact arrayUnion_mem _ _
  · rw [haccept]
    unfold acceptFriendRequest
    rw [show mapGet (mapSet db.requests requestId { reqd with status := "accepted" })
        requestId = some { reqd with status := "accepted" } from mapGet_mapSet_self _ _ _]
    dsimp only
    rw [if_pos (Or.inr (by decide))]
  · rw [haccept]
    unfold rejectFriendRequest
    rw [show mapGet (mapSet db.requests requestId { reqd with status := "accepted" })
        requestId = some { reqd with status := "accepted" } from mapGet_mapSet_self _ _ _]
    dsimp only
    rw [if_pos (Or.inr (by decide))]
  · intro other hother
    unfold acceptFriendRequest
    rw [hreq]
    dsimp only
    rw [if_pos (Or.inl (fun he => hother he.symm))]
  · rw [hreject]
  · rw [hreject]
    exact mapGet_mapSet_self _ _ _
  · rw [hreject]
  · rw [hreject]
    unfold acceptFriendRequest
    rw [show mapGet (mapSet db.requests requestId { reqd with status := "rejected" })
        requestId = some { reqd with status := "rejected" } from mapGet_mapSet_self _ _ _]
    dsimp only
    rw [if_pos (Or.inr (by decide))]
  · rw [hreject]
    unfold rejectFriendRequest
    rw [show mapGet (mapSet db.requests requestId { reqd with status := "rejected" })
        requestId = some { reqd with status := "rejected" } from mapGet_mapSet_self _ _ _]
    dsimp only
    rw [if_pos (Or.inr (by decide))]
  · intro other hother
    unfold rejectFriendRequest
    rw [hreq]
    dsimp only
    rw [if_pos (Or.inl (fun he => hother he.symm))]

/-- A two-user store with one pending request from `a` to `b`. -/
def friendsDb0 : FriendsDb :=
  { requests := [("r1", { senderId := "a", recipientId := "b", status := "pending" })],
    users := [("a", { username := "alice", friends := [] }),
              ("b", { username := "bob", friends := [] })] }

theorem friendRequest_lifecycle_witness :
    mapGet friendsDb0.requests "r1" =
        some { senderId := "a", recipientId := "b", status := "pending" } ∧
      (acceptFriendRequest friendsDb0 "b" "r1").2 = .ok "Friend request accepted" :=
  ⟨by decide,
    (friendRequest_lifecycle friendsDb0 "r1"
      { senderId := "a", recipientId := "b", status := "pending" }
      { username := "bob", friends := [] } { username := "alice", friends := [] }
      (by decide) (by decide) (by decide) (by decide) (by decide)).1⟩

/-! ## End-to-End Encryption Layer (`encryption.ts`, `useEncryption.ts`)

`encryptMessage`/`decryptMessage` implement hybrid encryption: a fresh
random AES-GCM key encrypts the UTF-8 bytes of the message, RSA-OAEP under
the recipient's public key encrypts the raw AES key, and the wire blob is
`IV (12 bytes) ∥ length of encrypted AES key (4 bytes, little-endian
Uint32) ∥ encrypted AES key ∥ ciphertext`.

The Web Crypto primitives are browser collaborators outside the repository;
they are modelled here as ideal symbolic encryption over byte lists
(modelled from the spec, §4.6: asymmetric key exchange plus hybrid symmetric
encryption, where decryption under a mismatched key fails): a keypair is
identified by a seed number, `rsaEncryptBytes`/`rsaDecryptBytes` succeed
exactly when the seeds match, and `aesEncryptBytes`/`aesDecryptBytes`
(AES-GCM is authenticated) succeed exactly when key and IV match.  The
`TextEncoder`/`TextDecoder` pair is modelled as the code-point encoding of
the string, and the base64 transport step (`arrayBufferToBase64`/
`base64ToArrayBuffer`, a mutually inverse browser codec applied after
`combined` is built and before it is parsed) is elided: the model works on
the `combined` byte array directly.  The randomness (`generateKey`,
`getRandomValues`) is passed in as the `aesKey` and `iv` parameters; the
source always generates a 12-byte IV. -/

/-- `TextEncoder.encode`, modelled as the code points of the string. -/
def textEncode (s : String) : List Nat :=
  s.data.map Char.toNat

/-- `TextDecoder.decode`, the inverse of `textEncode`. -/
def textDecode (l : List Nat) : String :=
  String.mk (l.map Char.ofNat)

theorem textDecode_textEncode (s : String) : textDecode (textEncode s) = s := by
  unfold textDecode textEncode
  rw [List.map_map]
  have hid : (Char.ofNat ∘ Char.toNat) = id := funext Char.ofNat_toNat
  rw [hid, List.map_id]

/-- The 4 little-endian bytes of `new Uint32Array([n]).buffer`. -/
def u32le (n : Nat) : List Nat :=
  [n % 256, n / 256 % 256, n / 65536 % 256, n / 16777216 % 256]

/-- Reading those bytes back as `new Uint32Array(bytes.buffer)[0]`. -/
def u32leDecode : List Nat → Nat
  | [b0, b1, b2, b3] => b0 + 256 * b1 + 65536 * b2 + 16777216 * b3
  | _ => 0

theorem u32leDecode_u32le (n : Nat) (h : n < 4294967296) :
    u32leDecode (u32le n) = n := by
  show n % 256 + 256 * (n / 256 % 256) + 65536 * (n / 65536 % 256) +
      16777216 * (n / 16777216 % 256) = n
  omega

theorem u32le_length (n : Nat) : (u32le n).length = 4 := rfl

/-- Modelled from the spec: ideal `RSA-OAEP` encryption of `data` under the
public half of the keypair with seed `publicKey`. -/
def rsaEncryptBytes (publicKey : Nat) (data : List Nat) : List Nat :=
  publicKey :: data

/-- Modelled from the spec: ideal `RSA-OAEP` decryption; fails (the Web
Crypto promise rejects) unless the blob was produced under the matching
keypair. -/
def rsaDecryptBytes (privateKey : Nat) (blob : List Nat) : Option (List Nat) :=
  match blob with
  | [] => none
  | k :: rest => if k = privateKey then some rest else none

/-- Modelled from the spec: ideal `AES-GCM` encryption of `data` under
`key` and `iv`. -/
def aesEncryptBytes (key iv data : List Nat) : List Nat :=
  key.length :: (key ++ (iv ++ data))

/-- Modelled from the spec: ideal authenticated `AES-GCM` decryption; fails
unless key and IV match the ones the blob was produced under. -/
def aesDecryptBytes (key iv blob : List Nat) : Option (List Nat) :=
  match blob with
  | [] => none
  | n :: rest =>
      if n = key.length ∧ rest.take key.length = key ∧
          (rest.drop key.length).take iv.length = iv then
        some (rest.drop (key.length + iv.length))
      else none

/-- `encryptMessage(message, publicKey)` of `encryption.ts`: hybrid
encryption producing the `combined` byte array
`iv ∥ u32le(len) ∥ encryptedAesKey ∥ encryptedMessage` (the final base64
step is elided, see above).  `aesKey` and `iv` are the randomly generated
AES key and 12-byte IV. -/
def encryptMessage (message : String) (publicKey : Nat) (aesKey iv : List Nat) :
    List Nat :=
  let data := textEncode message
  let encryptedMessage := aesEncryptBytes aesKey iv data
  let encryptedAesKey := rsaEncryptBytes publicKey aesKey
  iv ++ u32le encryptedAesKey.length ++ encryptedAesKey ++ encryptedMessage

/-- `decryptMessage(encryptedData, privateKey)` of `encryption.ts`: slice
the IV (bytes 0-12), the encrypted-AES-key length (bytes 12-16, read back
through `Uint32Array`), the encrypted AES key and the ciphertext; RSA-decrypt
the AES key, AES-decrypt the ciphertext, decode.  Any failure is caught and
becomes the literal `"[Unable to decrypt message]"`. -/
def decryptMessage (combined : List Nat) (privateKey : Nat) : String :=
  let iv := combined.take 12
  let keyLengthBytes := (combined.drop 12).take 4
  let keyLength := u32leDecode keyLengthBytes
  let encryptedAesKey := (combined.drop 16).take keyLength
  let encryptedMessage := combined.drop (16 + keyLength)
  match rsaDecryptBytes privateKey encryptedAesKey with
  | none => "[Unable to decrypt message]"
  | some aesKeyData =>
      match aesDecryptBytes aesKeyData iv encryptedMessage with
      | none => "[Unable to decrypt message]"
      | some decryptedData => textDecode decryptedData

theorem decryptMessage_encryptMessage (m : String) (kp priv : Nat)
    (aesKey iv : List Nat) (hiv : iv.length = 12)
    (hlen : aesKey.length + 1 < 4294967296) :
    decryptMessage (encryptMessage m kp aesKey iv) priv =
      if kp = priv then m else "[Unable to decrypt message]" := by
  have hcomb : encryptMessage m kp aesKey iv =
      iv ++ (u32le (aesKey.length + 1) ++
        ((kp :: aesKey) ++ aesEncryptBytes aesKey iv (textEncode m))) := by
    simp [encryptMessage, rsaEncryptBytes, List.append_assoc]
  have h1 : (iv ++ (u32le (aesKey.length + 1) ++
      ((kp :: aesKey) ++ aesEncryptBytes aesKey iv (textEncode m)))).take 12 = iv := by
    rw [← hiv]
    exact List.take_left _ _
  have h2 : (iv ++ (u32le (aesKey.length + 1) ++
      ((kp :: aesKey) ++ aesEncryptBytes aesKey iv (textEncode m)))).drop 12 =
        u32le (aesKey.length + 1) ++
          ((kp :: aesKey) ++ aesEncryptBytes aesKey iv (textEncode m)) := by
    rw [← hiv]
    exact List.drop_left _ _
  have h3 : ((iv ++ (u32le (aesKey.length + 1) ++
      ((kp :: aesKey) ++ aesEncryptBytes aesKey iv (textEncode m)))).drop 12).take 4 =
        u32le (aesKey.length + 1) := by
    rw [h2, ← u32le_length (aesKey.length + 1)]
    exact List.take_left _ _
  have h4 : (iv ++ (u32le (aesKey.length + 1) ++
      ((kp :: aesKey) ++ aesEncryptBytes aesKey iv (textEncode m)))).drop 16 =
        (kp :: aesKey) ++ aesEncryptBytes aesKey iv (textEncode m) := by
    have h16 : (16 : Nat) = 12 + 4 := rfl
    rw [h16, ← List.drop_drop, h2, ← u32le_length (aesKey.length + 1)]
    exact List.drop_left _ _
  have hklen : (kp :: aesKey).length = aesKey.length + 1 := by
    simp
  have h5 : ((iv ++ (u32le (aesKey.length + 1) ++
      ((kp :: aesKey) ++ aesEncryptBytes aesKey iv (textEncode m)))).drop 16).take
        (aesKey.length + 1) = kp :: aesKey := by
    rw [h4, ← hklen]
    exact List.take_left _ _
  have h6 : (iv ++ (u32le (aesKey.length + 1) ++
      ((kp :: aesKey) ++ aesEncryptBytes aesKey iv (textEncode m)))).drop
        (16 + (aesKey.length + 1)) = aesEncryptBytes aesKey iv (textEncode m) := by
    rw [← List.drop_drop, h4, ← hklen]
    exact List.drop_left _ _
  rw [hcomb]
  unfold decryptMessage
  simp only [h1, h3, u32leDecode_u32le _ hlen, h5, h6]
  unfold rsaDecryptBytes
  dsimp only
  by_cases hp : kp = priv
  · rw [if_pos hp]
    dsimp only
    have hrest : (aesKey ++ (iv ++ textEncode m)).take aesKey.length = aesKey :=
      List.take_left _ _
    have hrest2 : ((aesKey ++ (iv ++ textEncode m)).drop aesKey.length).take iv.length
        = iv := by
      rw [List.drop_left]
      exact List.take_left _ _
    have hrest3 : (aesKey ++ (iv ++ textEncode m)).drop (aesKey.length + iv.length)
        = textEncode m := by
      rw [← List.drop_drop, List.drop_left]
      exact List.drop_left _ _
    unfold aesEncryptBytes aesDecryptBytes
    dsimp only
    rw [if_pos ⟨rfl, hrest, hrest2⟩]
    dsimp only
    rw [hrest3, if_pos hp]
    exact textDecode_textEncode m
  · rw [if_neg hp]
    rw [if_neg hp]

/-- C5: hybrid-encryption round trip.  Decrypting with the matching
private key recovers the message exactly; decrypting a blob that was
encrypted for a different keypair fails with the decryption-error result
(the catch branch), never silently returning other plaintext. -/
theorem encryption_roundtrip (m : String) (kp kp' : Nat) (aesKey iv : List Nat)
    (hiv : iv.length = 12) (hlen : aesKey.length + 1 < 4294967296) :
    decryptMessage (encryptMessage m kp aesKey iv) kp = m ∧
      (kp' ≠ kp →
        decryptMessage (encryptMessage m kp aesKey iv) kp' =
          "[Unable to decrypt message]") := by
  constructor
  · rw [decryptMessage_encryptMessage m kp kp aesKey iv hiv hlen, if_pos rfl]
  · intro hne
    rw [decryptMessage_encryptMessage m kp kp' aesKey iv hiv hlen,
      if_neg (fun he => hne he.symm)]

theorem encryption_roundtrip_witness :
    (List.replicate 12 0 : List Nat).length = 12 ∧
      (List.replicate 32 7 : List Nat).length + 1 < 4294967296 ∧
      decryptMessage
          (encryptMessage "hi" 1 (List.replicate 32 7) (List.replicate 12 0)) 1 = "hi" ∧
      decryptMessage
          (encryptMessage "hi" 1 (List.replicate 32 7) (List.replicate 12 0)) 2 =
        "[Unable to decrypt message]" :=
  ⟨by decide, by decide,
    (encryption_roundtrip "hi" 1 2 (List.replicate 32 7) (List.replicate 12 0)
      (by decide) (by decide)).1,
    (encryption_roundtrip "hi" 1 2 (List.replicate 32 7) (List.replicate 12 0)
      (by decide) (by decide)).2 (by decide)⟩

/-! ## C9: the `useEncryption.encrypt` fall-open path -/

/-- The transport encoding of the combined byte array into the wire string
(`arrayBufferToBase64` in the source, an injective browser codec; the exact
alphabet is irrelevant to the claims, so an injective stand-in is used). -/
def wireEncode (l : List Nat) : String :=
  String.intercalate "," (l.map toString)

/-- The `encrypt` callback of `useEncryption.ts`: when the hook is not
ready, return the message unencrypted; fetch the recipient's public key
through the key directory (`getRecipientPublicKey`, cache plus
`GET /api/auth/public-key/:id`, yielding `null` on a missing key); when no
key is on file, return the message unencrypted; otherwise encrypt and
prefix the result with the `🔒` marker.  (The `try`/`catch` around
`encryptMessage` also falls back to the plain message; the model's
`encryptMessage` is total, so that branch is unreachable here.) -/
def hookEncrypt (isReady : Bool) (keyDirectory : String → Option Nat)
    (aesKey iv : List Nat) (message recipientId : String) : String :=
  if ¬ isReady then message
  else
    match keyDirectory recipientId with
    | none => message
    | some publicKey => "🔒" ++ wireEncode (encryptMessage message publicKey aesKey iv)

/-- C9: when the key directory has no public key on file for the recipient,
`encrypt` falls open to plaintext: it returns the original message
unmodified (in particular without the `🔒` ciphertext marker), for every
readiness state and message. -/
theorem hookEncrypt_fallsOpen (isReady : Bool) (keyDirectory : String → Option Nat)
    (aesKey iv : List Nat) (message recipientId : String)
    (hnokey : keyDirectory recipientId = none) :
    hookEncrypt isReady keyDirectory aesKey iv message recipientId = message := by
  unfold hookEncrypt
  by_cases hr : isReady
  · simp [hr, hnokey]
  · simp [hr]

theorem hookEncrypt_fallsOpen_witness :
    ((fun _ => none : String → Option Nat) "bob" = none) ∧
      hookEncrypt true (fun _ => none) [] [] "hi there" "bob" = "hi there" :=
  ⟨rfl, hookEncrypt_fallsOpen true (fun _ => none) [] [] "hi there" "bob" rfl⟩
